import Mathlib

/-
Verification of the Guarded Conversation Session design and of the
notebook code in tutorials/on-prem-llm-ollama/scripts/basic_usage.ipynb.

The repository itself ships only tutorial notebooks; the conversation
state machine with pluggable guardrails is specified at design level and
is not implemented under src/.  Definitions for that design are therefore
modelled from the spec (each such definition says so in its doc comment),
while check_ollama_running and example_4_conversation are shallow
embeddings of the Python cells that do appear in the notebook.
-/

/-- Modelled from the spec: the Role of a turn, one of System, User,
Assistant (section 3, Data Model). -/
inductive Role
  | system
  | user
  | assistant
deriving DecidableEq

/-- Modelled from the spec: an immutable record with role, content and
timestamp (section 3, Data Model). -/
structure Turn where
  role : Role
  content : String
  timestamp : Nat
deriving DecidableEq

/-- Modelled from the spec: a guardrail decision, Allow, Block or
NeedsReview (section 3, GuardrailVerdict). -/
inductive ScanDecision
  | allow
  | needsReview
  | block
deriving DecidableEq

/-- Modelled from the spec: severity used for worst-case precedence,
Block over NeedsReview over Allow (section 4.3). -/
def ScanDecision.sev : ScanDecision → Nat
  | .allow => 0
  | .needsReview => 1
  | .block => 2

/-- Modelled from the spec: the worst of two decisions under the
precedence Block over NeedsReview over Allow (section 4.3). -/
def ScanDecision.worst (a b : ScanDecision) : ScanDecision :=
  if a.sev < b.sev then b else a

/-- Modelled from the spec: a verdict produced by one scanner, with
scanner id, decision, score and reason (section 3). -/
structure GuardrailVerdict where
  scannerId : String
  decision : ScanDecision
  score : Rat
  reason : String
deriving DecidableEq

/-- Modelled from the spec: the aggregate decision of a chain invocation
is the most restrictive verdict, computed by folding worst-case
precedence over the verdicts (sections 3 and 4.3). -/
def aggDecision (vs : List GuardrailVerdict) : ScanDecision :=
  vs.foldr (fun v d => ScanDecision.worst v.decision d) ScanDecision.allow

/-- Modelled from the spec: fold taking the maximum score of a verdict
list, used for breaking ties on the winning decision (section 4.3). -/
def scoreFold (vs : List GuardrailVerdict) : Rat :=
  vs.foldr (fun v s => max v.score s) 0

/-- Modelled from the spec: the verdicts that share the aggregate
decision, among which ties are broken by highest score (section 4.3). -/
def winners (vs : List GuardrailVerdict) : List GuardrailVerdict :=
  vs.filter (fun v => decide (v.decision = aggDecision vs))

/-- Modelled from the spec: the score reported by a chain invocation,
the highest score among verdicts tied on the winning decision. -/
def aggScore (vs : List GuardrailVerdict) : Rat :=
  scoreFold (winners vs)

/-- Modelled from the spec: a scanner is opaque and only exposes the
classify capability taking text and a context conversation to a verdict
(section 4.3). -/
def Scanner : Type :=
  String → List Turn → GuardrailVerdict

/-- Modelled from the spec: outcome of one guardrail-chain invocation,
aggregating all verdicts for one candidate turn (section 3). -/
structure ScanOutcome where
  decision : ScanDecision
  score : Rat
  verdicts : List GuardrailVerdict
deriving DecidableEq

/-- Modelled from the spec: a chain invocation runs every scanner on the
candidate turn and context independently and aggregates by worst-case
precedence with highest-score tie break (section 4.3). -/
def scanChain (scanners : List Scanner) (t : Turn) (ctx : List Turn) :
    ScanOutcome :=
  let vs := scanners.map (fun s => s t.content ctx)
  ScanOutcome.mk (aggDecision vs) (aggScore vs) vs

/-- Modelled from the spec: the transport failure kinds of the Inference
Client (section 4.2). -/
inductive InferenceError
  | unavailable
  | rateLimited
  | badRequest
deriving DecidableEq

/-- Modelled from the spec: result of one inference attempt, a generated
Turn or an InferenceError (section 4.2). -/
inductive InferResult
  | ok (t : Turn)
  | err (e : InferenceError)
deriving DecidableEq

/-- Modelled from the spec: the retry loop of step 3 of the state
machine.  The backend is indexed by attempt number; on Unavailable or
RateLimited the controller retries while budget remains, on BadRequest it
surfaces immediately; the returned Nat counts inference calls made
(section 4.4, step 3). -/
def runInference (backend : Nat → InferResult) :
    Nat → Nat → InferResult × Nat
  | attempt, budget =>
    match backend attempt, budget with
    | .ok t, _ => (.ok t, 1)
    | .err .badRequest, _ => (.err .badRequest, 1)
    | .err e, 0 => (.err e, 1)
    | .err _, b + 1 =>
      let r := runInference backend (attempt + 1) b
      (r.1, r.2 + 1)

/-- Modelled from the spec: the stage at which a guardrail rejection
happened (section 4.4). -/
inductive Stage
  | input
  | output
deriving DecidableEq

/-- Modelled from the spec: the rejection value returned to the caller,
carrying the stage and the full ScanOutcome (sections 4.4 and 7). -/
structure GuardrailRejection where
  stage : Stage
  outcome : ScanOutcome
deriving DecidableEq

/-- Modelled from the spec: the value a submit call resolves to
(section 6, caller-facing API). -/
inductive SubmitResult
  | committed (t : Turn)
  | rejected (r : GuardrailRejection)
  | inferenceFailure (e : InferenceError)
deriving DecidableEq

/-- Modelled from the spec: the Session Controller configuration,
scanner chains for input and output, the retry budget (default 2) and
whether NeedsReview is treated as Rejected (default true, fail closed)
(sections 4.4 and 9). -/
structure SessionConfig where
  inputScanners : List Scanner
  outputScanners : List Scanner
  retryBudget : Nat
  needsReviewRejected : Bool

/-- Modelled from the spec: whether the controller rejects on a scan
outcome, Block always, NeedsReview under the default fail-closed policy
(section 4.4, steps 2 and 6). -/
def rejects (cfg : SessionConfig) (o : ScanOutcome) : Bool :=
  o.decision == ScanDecision.block ||
    (o.decision == ScanDecision.needsReview && cfg.needsReviewRejected)

/-- Modelled from the spec: the User Turn built from the submitted text
(section 4.4, step 1). -/
def mkUserTurn (text : String) (ts : Nat) : Turn :=
  Turn.mk Role.user text ts

/-- Modelled from the spec: what a resolved submit call leaves behind,
the result surfaced to the caller, the conversation history after the
call, and the number of inference calls attempted. -/
structure SubmitOutput where
  result : SubmitResult
  history : List Turn
  inferenceCalls : Nat
deriving DecidableEq

/-- Modelled from the spec: the outcome of the input chain scanning the
new user turn against full history (section 4.4, step 2). -/
def inputOutcome (cfg : SessionConfig) (history : List Turn)
    (text : String) (ts : Nat) : ScanOutcome :=
  scanChain cfg.inputScanners (mkUserTurn text ts)
    (history ++ [mkUserTurn text ts])

/-- Modelled from the spec: the outcome of the output chain scanning the
candidate turn plus the original user turn, the trace (section 4.4,
step 4). -/
def outputOutcome (cfg : SessionConfig) (text : String) (ts : Nat)
    (cand : Turn) : ScanOutcome :=
  scanChain cfg.outputScanners cand [mkUserTurn text ts, cand]

/-- Modelled from the spec: the submit state machine of section 4.4.
The user turn is appended, the input chain scans it against full
history, inference runs with the retry budget, the output chain scans
the candidate plus the original user turn (the trace), and the candidate
is committed only on Allow; every rejection restores the history to its
value before the call (steps 1 to 6). -/
def submit (cfg : SessionConfig) (backend : Nat → InferResult)
    (history : List Turn) (text : String) (ts : Nat) : SubmitOutput :=
  if rejects cfg (inputOutcome cfg history text ts) then
    SubmitOutput.mk
      (.rejected (GuardrailRejection.mk .input (inputOutcome cfg history text ts)))
      history 0
  else
    match runInference backend 0 cfg.retryBudget with
    | (.err e, n) => SubmitOutput.mk (.inferenceFailure e) history n
    | (.ok cand, n) =>
      if rejects cfg (outputOutcome cfg text ts cand) then
        SubmitOutput.mk
          (.rejected (GuardrailRejection.mk .output (outputOutcome cfg text ts cand)))
          history n
      else
        SubmitOutput.mk (.committed cand)
          (history ++ [mkUserTurn text ts, cand]) n

/-- Modelled from the spec: whether a submit resolved in the Committed
terminal state (section 4.4). -/
def isCommitted : SubmitResult → Bool
  | .committed _ => true
  | _ => false

/-- Modelled from the spec: a finite sequence of submit calls on one
session, each step carrying the user text, the backend behaviour for
that call and a timestamp; returns the final history and the number of
submits that reached Committed (sections 5 and 8). -/
def runSession (cfg : SessionConfig) :
    List Turn → List (String × (Nat → InferResult) × Nat) → List Turn × Nat
  | history, [] => (history, 0)
  | history, step :: rest =>
    ((runSession cfg (submit cfg step.2.1 history step.1 step.2.2).history rest).1,
     (if isCommitted (submit cfg step.2.1 history step.1 step.2.2).result
        then 1 else 0) +
       (runSession cfg (submit cfg step.2.1 history step.1 step.2.2).history rest).2)

/-- Modelled from the spec: the fatal error the Message Store raises on
an invalid append (sections 4.1 and 7). -/
inductive StoreError
  | invariantViolation
deriving DecidableEq

/-- Modelled from the spec: the Message Store append contract, a pure
append that fails with InvariantViolation if a second System turn is
added or if a System turn would be inserted out of order, that is, not
as the first element (section 4.1). -/
def appendTurn (c : List Turn) (t : Turn) : Except StoreError (List Turn) :=
  match t.role with
  | .system => if c.isEmpty then .ok (c ++ [t]) else .error .invariantViolation
  | _ => .ok (c ++ [t])

/-- Modelled from the spec: the conversations reachable from the empty
store by successful appends (section 3, Conversation lifecycle). -/
inductive ReachableConv : List Turn → Prop
  | nil : ReachableConv []
  | step {c : List Turn} {t : Turn} {c' : List Turn} :
      ReachableConv c → appendTurn c t = .ok c' → ReachableConv c'

/-- Modelled from the spec: the Conversation invariant, every System
turn sits at index zero; this gives both at most one System turn and
System first when present (section 3). -/
def systemFirst (c : List Turn) : Prop :=
  ∀ i : Fin c.length, (c.get i).role = Role.system → i.val = 0

/-- Modelled from the spec: the recognized sampling options of the
Inference Client (section 4.2). -/
structure InferenceOptions where
  temperature : Rat
  topP : Rat
  maxTokens : Int
  stopSequences : List String
  stream : Bool
deriving DecidableEq

/-- Modelled from the spec: the transport-level outcome of the one
network call complete performs (sections 4.2 and 6). -/
inductive BackendReply
  | success (t : Turn)
  | unreachable
  | throttled
  | badPayload
deriving DecidableEq

/-- Modelled from the spec: the request payload complete sends over the
backend boundary, model id, the conversation turns and the options
(section 6). -/
structure ChatRequest where
  modelId : String
  messages : List Turn
  options : InferenceOptions
deriving DecidableEq

/-- Modelled from the spec: the Inference Client complete call with
explicit state passing.  It builds the request from the conversation,
maps the transport outcome to a Turn or an InferenceError, and returns
the conversation it was given, since it has no side effect beyond the
network call and must not mutate the passed-in Conversation
(sections 4.2 and 6). -/
def complete (c : List Turn) (o : InferenceOptions) (modelId : String)
    (reply : BackendReply) : ChatRequest × InferResult × List Turn :=
  let request := ChatRequest.mk modelId c o
  match reply with
  | .success t => (request, .ok t, c)
  | .unreachable => (request, .err .unavailable, c)
  | .throttled => (request, .err .rateLimited, c)
  | .badPayload => (request, .err .badRequest, c)

/-- One message dict of the notebook conversation cells: a role string
and a content that may be None, since example_4_conversation can return
None (basic_usage.ipynb, conversation example). -/
structure NbMessage where
  role : String
  content : Option String
deriving DecidableEq

/-- The HTTP response the notebook code branches on: the status code and
the message content carried in the JSON body. -/
structure NbHttpResponse where
  statusCode : Nat
  messageContent : String
deriving DecidableEq

/-- The JSON payload the notebook builds for the chat endpoint: model,
messages and the stream flag (basic_usage.ipynb). -/
structure ChatRequestNb where
  model : String
  messages : List NbMessage
  stream : Bool
deriving DecidableEq

/-- Embedding of example_4_conversation from basic_usage.ipynb: POST the
messages to the chat endpoint; if response.status_code == 200 return the
JSON message content, otherwise fall off the end of the function, which
in Python returns None.  The response is passed explicitly. -/
def example_4_conversation (messages : List NbMessage)
    (resp : NbHttpResponse) : ChatRequestNb × Option String :=
  let request := ChatRequestNb.mk "llama3.1:8b" messages false
  if resp.statusCode == 200 then
    (request, some resp.messageContent)
  else
    (request, none)

/-- Embedding of the follow-up notebook cell that appends the assistant
reply: messages.append with role assistant and content assistant_msg. -/
def appendAssistant (messages : List NbMessage) (msg : Option String) :
    List NbMessage :=
  messages ++ [NbMessage.mk "assistant" msg]

/-- Outcome of the availability probe in check_ollama_running: the GET
either completes with some status code, or raises (timeout, connection
error, or any other exception caught by the bare except). -/
inductive ProbeOutcome
  | response (statusCode : Nat)
  | timeout
  | connectionError
  | otherException
deriving DecidableEq

/-- Embedding of check_ollama_running from basic_usage.ipynb: GET the
tags endpoint with timeout 5; return status_code == 200, and on any
exception return False via the bare except clause. -/
def check_ollama_running (probe : ProbeOutcome) : Bool :=
  match probe with
  | .response code => code == 200
  | .timeout => false
  | .connectionError => false
  | .otherException => false

lemma worst_left_comm (a b c : ScanDecision) :
    ScanDecision.worst a (ScanDecision.worst b c) =
      ScanDecision.worst b (ScanDecision.worst a c) := by
  cases a <;> cases b <;> cases c <;> rfl

lemma worst_eq_block (a b : ScanDecision) :
    ScanDecision.worst a b = .block ↔ a = .block ∨ b = .block := by
  cases a <;> cases b <;> decide

lemma worst_eq_allow (a b : ScanDecision) :
    ScanDecision.worst a b = .allow ↔ a = .allow ∧ b = .allow := by
  cases a <;> cases b <;> decide

lemma worst_eq_either (a b : ScanDecision) :
    ScanDecision.worst a b = a ∨ ScanDecision.worst a b = b := by
  cases a <;> cases b <;> first | exact Or.inl rfl | exact Or.inr rfl

lemma worst_allow_right (a : ScanDecision) :
    ScanDecision.worst a .allow = a := by
  cases a <;> rfl

lemma aggDecision_nil : aggDecision [] = .allow := rfl

lemma aggDecision_cons (v : GuardrailVerdict) (l : List GuardrailVerdict) :
    aggDecision (v :: l) = ScanDecision.worst v.decision (aggDecision l) := rfl

lemma aggDecision_perm {l l' : List GuardrailVerdict} (h : l.Perm l') :
    aggDecision l = aggDecision l' := by
  induction h with
  | nil => rfl
  | cons x _ ih => rw [aggDecision_cons, aggDecision_cons, ih]
  | swap x y l =>
      rw [aggDecision_cons, aggDecision_cons, aggDecision_cons, aggDecision_cons,
        worst_left_comm]
  | trans _ _ ih1 ih2 => exact ih1.trans ih2

lemma aggDecision_eq_block (vs : List GuardrailVerdict) :
    aggDecision vs = .block ↔ ∃ v ∈ vs, v.decision = .block := by
  induction vs with
  | nil => simp [aggDecision_nil]
  | cons v l ih =>
      rw [aggDecision_cons, worst_eq_block, ih]
      simp

lemma aggDecision_eq_allow (vs : List GuardrailVerdict) :
    aggDecision vs = .allow ↔ ∀ v ∈ vs, v.decision = .allow := by
  induction vs with
  | nil => simp [aggDecision_nil]
  | cons v l ih =>
      rw [aggDecision_cons, worst_eq_allow, ih]
      simp

lemma aggDecision_eq_needsReview (vs : List GuardrailVerdict) :
    aggDecision vs = .needsReview ↔
      (∀ v ∈ vs, v.decision ≠ .block) ∧ ∃ v ∈ vs, v.decision = .needsReview := by
  constructor
  · intro h
    have hnb : ∀ v ∈ vs, v.decision ≠ .block := by
      intro v hv hb
      have : aggDecision vs = .block := (aggDecision_eq_block vs).2 ⟨v, hv, hb⟩
      rw [h] at this
      exact ScanDecision.noConfusion this
    refine ⟨hnb, ?_⟩
    by_contra hno
    push_neg at hno
    have hall : ∀ v ∈ vs, v.decision = .allow := by
      intro v hv
      cases hd : v.decision with
      | allow => rfl
      | needsReview => exact absurd hd (hno v hv)
      | block => exact absurd hd (hnb v hv)
    have : aggDecision vs = .allow := (aggDecision_eq_allow vs).2 hall
    rw [h] at this
    exact ScanDecision.noConfusion this
  · rintro ⟨hnb, v, hv, hd⟩
    cases hagg : aggDecision vs with
    | allow =>
        have := (aggDecision_eq_allow vs).1 hagg v hv
        rw [hd] at this
        exact absurd this (by decide)
    | needsReview => rfl
    | block =>
        obtain ⟨w, hw, hwb⟩ := (aggDecision_eq_block vs).1 hagg
        exact absurd hwb (hnb w hw)

lemma aggDecision_attained {vs : List GuardrailVerdict} (h : vs ≠ []) :
    ∃ v ∈ vs, v.decision = aggDecision vs := by
  induction vs with
  | nil => exact absurd rfl h
  | cons v l ih =>
      cases l with
      | nil =>
          refine ⟨v, List.mem_cons_self v [], ?_⟩
          rw [aggDecision_cons, aggDecision_nil, worst_allow_right]
      | cons w t =>
          obtain ⟨u, hu, hud⟩ := ih (by simp)
          rw [aggDecision_cons]
          rcases worst_eq_either v.decision (aggDecision (w :: t)) with hw | hw
          · exact ⟨v, List.mem_cons_self v _, hw.symm⟩
          · exact ⟨u, List.mem_cons_of_mem v hu, by rw [hud, hw]⟩

lemma scoreFold_cons (v : GuardrailVerdict) (l : List GuardrailVerdict) :
    scoreFold (v :: l) = max v.score (scoreFold l) := rfl

lemma scoreFold_perm {l l' : List GuardrailVerdict} (h : l.Perm l') :
    scoreFold l = scoreFold l' := by
  induction h with
  | nil => rfl
  | cons x _ ih => rw [scoreFold_cons, scoreFold_cons, ih]
  | swap x y l =>
      rw [scoreFold_cons, scoreFold_cons, scoreFold_cons, scoreFold_cons,
        max_left_comm]
  | trans _ _ ih1 ih2 => exact ih1.trans ih2

lemma le_scoreFold {l : List GuardrailVerdict} {v : GuardrailVerdict}
    (hv : v ∈ l) : v.score ≤ scoreFold l := by
  induction l with
  | nil => exact absurd hv (List.not_mem_nil v)
  | cons w t ih =>
      rcases List.mem_cons.1 hv with h | h
      · rw [h]
        exact le_max_left _ _
      · exact le_trans (ih h) (le_max_right _ _)

lemma scoreFold_attained {l : List GuardrailVerdict} (hne : l ≠ [])
    (hpos : ∀ v ∈ l, 0 ≤ v.score) : ∃ v ∈ l, scoreFold l = v.score := by
  induction l with
  | nil => exact absurd rfl hne
  | cons v t ih =>
      cases t with
      | nil =>
          refine ⟨v, List.mem_cons_self v [], ?_⟩
          rw [scoreFold_cons]
          show max v.score 0 = v.score
          exact max_eq_left (hpos v (List.mem_cons_self v []))
      | cons w s =>
          obtain ⟨u, hu, huf⟩ := ih (by simp)
            (fun x hx => hpos x (List.mem_cons_of_mem v hx))
          rcases max_choice v.score (scoreFold (w :: s)) with hm | hm
          · exact ⟨v, List.mem_cons_self v _, by rw [scoreFold_cons, hm]⟩
          · exact ⟨u, List.mem_cons_of_mem v hu, by rw [scoreFold_cons, hm, huf]⟩

lemma winners_perm {l l' : List GuardrailVerdict} (h : l.Perm l') :
    (winners l).Perm (winners l') := by
  unfold winners
  rw [aggDecision_perm h]
  exact h.filter _

lemma aggScore_perm {l l' : List GuardrailVerdict} (h : l.Perm l') :
    aggScore l = aggScore l' :=
  scoreFold_perm (winners_perm h)

lemma mem_winners {vs : List GuardrailVerdict} {v : GuardrailVerdict} :
    v ∈ winners vs ↔ v ∈ vs ∧ v.decision = aggDecision vs := by
  unfold winners
  simp [List.mem_filter]

lemma submit_of_input_rejected (cfg : SessionConfig)
    (backend : Nat → InferResult) (history : List Turn) (text : String)
    (ts : Nat) (h : rejects cfg (inputOutcome cfg history text ts) = true) :
    submit cfg backend history text ts =
      SubmitOutput.mk
        (.rejected (GuardrailRejection.mk .input (inputOutcome cfg history text ts)))
        history 0 := by
  simp [submit, h]

lemma submit_of_infer_err (cfg : SessionConfig)
    (backend : Nat → InferResult) (history : List Turn) (text : String)
    (ts : Nat) (e : InferenceError) (n : Nat)
    (hin : rejects cfg (inputOutcome cfg history text ts) = false)
    (hrun : runInference backend 0 cfg.retryBudget = (.err e, n)) :
    submit cfg backend history text ts =
      SubmitOutput.mk (.inferenceFailure e) history n := by
  simp [submit, hin, hrun]

lemma submit_of_output_rejected (cfg : SessionConfig)
    (backend : Nat → InferResult) (history : List Turn) (text : String)
    (ts : Nat) (cand : Turn) (n : Nat)
    (hin : rejects cfg (inputOutcome cfg history text ts) = false)
    (hrun : runInference backend 0 cfg.retryBudget = (.ok cand, n))
    (hout : rejects cfg (outputOutcome cfg text ts cand) = true) :
    submit cfg backend history text ts =
      SubmitOutput.mk
        (.rejected (GuardrailRejection.mk .output (outputOutcome cfg text ts cand)))
        history n := by
  simp [submit, hin, hrun, hout]

lemma submit_of_committed (cfg : SessionConfig)
    (backend : Nat → InferResult) (history : List Turn) (text : String)
    (ts : Nat) (cand : Turn) (n : Nat)
    (hin : rejects cfg (inputOutcome cfg history text ts) = false)
    (hrun : runInference backend 0 cfg.retryBudget = (.ok cand, n))
    (hout : rejects cfg (outputOutcome cfg text ts cand) = false) :
    submit cfg backend history text ts =
      SubmitOutput.mk (.committed cand)
        (history ++ [mkUserTurn text ts, cand]) n := by
  simp [submit, hin, hrun, hout]

lemma submit_history_cases (cfg : SessionConfig)
    (backend : Nat → InferResult) (history : List Turn) (text : String)
    (ts : Nat) :
    ((submit cfg backend history text ts).history = history ∧
      isCommitted (submit cfg backend history text ts).result = false) ∨
    (∃ cand : Turn, (submit cfg backend history text ts).history =
        history ++ [mkUserTurn text ts, cand] ∧
      isCommitted (submit cfg backend history text ts).result = true) := by
  by_cases hin : rejects cfg (inputOutcome cfg history text ts) = true
  · left
    rw [submit_of_input_rejected cfg backend history text ts hin]
    exact ⟨rfl, rfl⟩
  · rw [Bool.not_eq_true] at hin
    rcases hrun : runInference backend 0 cfg.retryBudget with ⟨r, n⟩
    cases r with
    | err e =>
        left
        rw [submit_of_infer_err cfg backend history text ts e n hin hrun]
        exact ⟨rfl, rfl⟩
    | ok cand =>
        by_cases hout : rejects cfg (outputOutcome cfg text ts cand) = true
        · left
          rw [submit_of_output_rejected cfg backend history text ts cand n hin hrun hout]
          exact ⟨rfl, rfl⟩
        · rw [Bool.not_eq_true] at hout
          right
          have hs := submit_of_committed cfg backend history text ts cand n hin hrun hout
          exact ⟨cand, by rw [hs], by rw [hs]; rfl⟩

lemma runSession_cons (cfg : SessionConfig) (history : List Turn)
    (step : String × (Nat → InferResult) × Nat)
    (rest : List (String × (Nat → InferResult) × Nat)) :
    runSession cfg history (step :: rest) =
      ((runSession cfg (submit cfg step.2.1 history step.1 step.2.2).history rest).1,
       (if isCommitted (submit cfg step.2.1 history step.1 step.2.2).result
          then 1 else 0) +
         (runSession cfg (submit cfg step.2.1 history step.1 step.2.2).history rest).2) :=
  rfl

lemma runSession_length (cfg : SessionConfig)
    (steps : List (String × (Nat → InferResult) × Nat)) :
    ∀ init : List Turn,
      (runSession cfg init steps).1.length =
        init.length + 2 * (runSession cfg init steps).2 := by
  induction steps with
  | nil => intro init; simp [runSession]
  | cons step rest ih =>
      intro init
      rw [runSession_cons]
      rcases submit_history_cases cfg step.2.1 init step.1 step.2.2 with
        ⟨hh, hc⟩ | ⟨cand, hh, hc⟩
      · rw [hh, hc]
        simpa using ih init
      · rw [hh, hc]
        have hlen := ih (init ++ [mkUserTurn step.1 step.2.2, cand])
        simp only [List.length_append, List.length_cons, List.length_nil] at hlen
        simp only [List.length_append, List.length_cons, List.length_nil]
        simp only [if_pos trivial, ite_true]
        omega

lemma runInference_of_ok (backend : Nat → InferResult) (a budget : Nat)
    (t : Turn) (h : backend a = .ok t) :
    runInference backend a budget = (.ok t, 1) := by
  cases budget <;> simp [runInference, h]

lemma runInference_of_badRequest (backend : Nat → InferResult)
    (a budget : Nat) (h : backend a = .err .badRequest) :
    runInference backend a budget = (.err .badRequest, 1) := by
  cases budget <;> simp [runInference, h]

lemma runInference_calls_le (backend : Nat → InferResult) :
    ∀ budget a : Nat, (runInference backend a budget).2 ≤ budget + 1 := by
  intro budget
  induction budget with
  | zero =>
      intro a
      unfold runInference
      cases backend a with
      | ok t => simp
      | err e => cases e <;> simp
  | succ b ih =>
      intro a
      unfold runInference
      cases backend a with
      | ok t => simp
      | err e =>
          cases e <;> simp <;> exact ih (a + 1)

lemma runInference_all_unavailable (backend : Nat → InferResult)
    (h : ∀ k, backend k = .err .unavailable) :
    ∀ budget a : Nat,
      runInference backend a budget = (.err .unavailable, budget + 1) := by
  intro budget
  induction budget with
  | zero =>
      intro a
      unfold runInference
      rw [h a]
  | succ b ih =>
      intro a
      unfold runInference
      rw [h a]
      simp [ih (a + 1)]

lemma appendTurn_ok_eq {c : List Turn} {t : Turn} {c' : List Turn}
    (h : appendTurn c t = .ok c') :
    c' = c ++ [t] ∧ (t.role = Role.system → c = []) := by
  cases ht : t.role with
  | system =>
      by_cases hc : c.isEmpty
      · have hce : c = [] := List.isEmpty_iff.mp hc
        simp [appendTurn, ht, hc] at h
        exact ⟨h.symm, fun _ => hce⟩
      · simp [appendTurn, ht, hc] at h
  | user =>
      simp [appendTurn, ht] at h
      exact ⟨h.symm, by simp [ht]⟩
  | assistant =>
      simp [appendTurn, ht] at h
      exact ⟨h.symm, by simp [ht]⟩

lemma appendTurn_error_iff (c : List Turn) (t : Turn) :
    appendTurn c t = .error .invariantViolation ↔
      t.role = Role.system ∧ c ≠ [] := by
  cases ht : t.role with
  | system =>
      by_cases hc : c.isEmpty
      · have hce : c = [] := List.isEmpty_iff.mp hc
        simp [appendTurn, ht, hc, hce]
      · have hce : c ≠ [] := by
          intro hnil
          rw [hnil] at hc
          exact hc rfl
        simp [appendTurn, ht, hc, hce]
  | user => simp [appendTurn, ht]
  | assistant => simp [appendTurn, ht]

/-- Modelled from the spec: no turn after the first position is a System
turn; together with a count bound this is the Conversation invariant of
section 3. -/
def tailNoSystem (c : List Turn) : Prop :=
  ∀ u ∈ c.drop 1, u.role ≠ Role.system

/-- Modelled from the spec: the Conversation holds at most one System
turn (section 3). -/
def atMostOneSystem (c : List Turn) : Prop :=
  (c.filter (fun u => decide (u.role = Role.system))).length ≤ 1

lemma tailNoSystem_append {c : List Turn} {t : Turn}
    (hc : tailNoSystem c) (hnt : t.role = Role.system → c = []) :
    tailNoSystem (c ++ [t]) := by
  cases c with
  | nil =>
      intro u hu
      simp at hu
  | cons x rest =>
      intro u hu
      have hm : u ∈ rest ++ [t] := by simpa using hu
      rcases List.mem_append.1 hm with h1 | h1
      · exact hc u (by simpa using h1)
      · have hut : u = t := by simpa using h1
        intro hsys
        rw [hut] at hsys
        exact absurd (hnt hsys) (by simp)

lemma atMostOne_of_tailNoSystem {c : List Turn} (h : tailNoSystem c) :
    atMostOneSystem c := by
  cases c with
  | nil => simp [atMostOneSystem]
  | cons x rest =>
      have hrest : rest.filter (fun u => decide (u.role = Role.system)) = [] := by
        rw [List.filter_eq_nil_iff]
        intro u hu
        simp only [decide_eq_true_eq]
        exact h u (by simpa using hu)
      unfold atMostOneSystem
      rw [List.filter_cons, hrest]
      split <;> simp

lemma reachable_tailNoSystem {c : List Turn} (h : ReachableConv c) :
    tailNoSystem c := by
  induction h with
  | nil => intro u hu; simp at hu
  | step hr hok ih =>
      obtain ⟨heq, hsys⟩ := appendTurn_ok_eq hok
      rw [heq]
      exact tailNoSystem_append ih hsys

lemma decision_allow_of_not_rejects {cfg : SessionConfig} {o : ScanOutcome}
    (hflag : cfg.needsReviewRejected = true) (h : rejects cfg o = false) :
    o.decision = .allow := by
  cases hd : o.decision <;> simp [rejects, hd, hflag] at h ⊢

/-- C1: whenever the candidate assistant turn of a submit is blocked, or
left in NeedsReview that the configuration treats as rejected, by the
output guardrail chain, the submit resolves to a GuardrailRejection at
stage Output carrying that ScanOutcome, the candidate turn is never
appended, and the conversation history after the call is exactly the
history from before the call. -/
theorem output_rejection_is_atomic (cfg : SessionConfig)
    (backend : Nat → InferResult) (history : List Turn) (text : String)
    (ts : Nat) (cand : Turn) (n : Nat)
    (hin : rejects cfg (inputOutcome cfg history text ts) = false)
    (hrun : runInference backend 0 cfg.retryBudget = (.ok cand, n))
    (hout : rejects cfg (outputOutcome cfg text ts cand) = true) :
    (submit cfg backend history text ts).result =
      .rejected (GuardrailRejection.mk .output (outputOutcome cfg text ts cand)) ∧
    (submit cfg backend history text ts).history = history := by
  rw [submit_of_output_rejected cfg backend history text ts cand n hin hrun hout]
  exact ⟨rfl, rfl⟩

/-- Witness for C1: the Output Block example of the spec, a weather
session whose mocked inference answers about dogs; the history keeps
only the System and User turns, with no Assistant turn appended. -/
theorem output_rejection_is_atomic_witness :
    (submit
        (SessionConfig.mk []
          [fun text _ =>
            if text = "Dogs are descendants of wolves"
              then GuardrailVerdict.mk "alignment" ScanDecision.block 1 "topic deviation"
              else GuardrailVerdict.mk "alignment" ScanDecision.allow 0 "ok"]
          2 true)
        (fun _ => .ok (Turn.mk .assistant "Dogs are descendants of wolves" 1))
        [Turn.mk .system "You are a weather assistant" 0]
        "What is the weather?" 1).result =
      .rejected (GuardrailRejection.mk .output
        (outputOutcome
          (SessionConfig.mk []
            [fun text _ =>
              if text = "Dogs are descendants of wolves"
                then GuardrailVerdict.mk "alignment" ScanDecision.block 1 "topic deviation"
                else GuardrailVerdict.mk "alignment" ScanDecision.allow 0 "ok"]
            2 true)
          "What is the weather?" 1
          (Turn.mk .assistant "Dogs are descendants of wolves" 1))) ∧
    (submit
        (SessionConfig.mk []
          [fun text _ =>
            if text = "Dogs are descendants of wolves"
              then GuardrailVerdict.mk "alignment" ScanDecision.block 1 "topic deviation"
              else GuardrailVerdict.mk "alignment" ScanDecision.allow 0 "ok"]
          2 true)
        (fun _ => .ok (Turn.mk .assistant "Dogs are descendants of wolves" 1))
        [Turn.mk .system "You are a weather assistant" 0]
        "What is the weather?" 1).history =
      [Turn.mk .system "You are a weather assistant" 0] :=
  output_rejection_is_atomic _ _ _ _ _
    (Turn.mk .assistant "Dogs are descendants of wolves" 1) 1
    rfl rfl rfl

/-- C2: over every finite sequence of submit calls on one session the
history length equals twice the number of submits that reached
Committed, plus one when a leading System turn was configured; and any
single submit that does not commit leaves the history exactly
unchanged, so no turn of a rejected submit ever appears. -/
theorem history_length_invariant (cfg : SessionConfig)
    (steps : List (String × (Nat → InferResult) × Nat)) (init : List Turn)
    (backend : Nat → InferResult) (text : String) (ts : Nat)
    (h : List Turn)
    (hinit : init = [] ∨ ∃ s tss, init = [Turn.mk Role.system s tss]) :
    ((runSession cfg init steps).1.length =
      2 * (runSession cfg init steps).2 + (if init = [] then 0 else 1)) ∧
    (isCommitted (submit cfg backend h text ts).result = false →
      (submit cfg backend h text ts).history = h) := by
  constructor
  · have hlen := runSession_length cfg steps init
    rcases hinit with h0 | ⟨s, tss, h1⟩
    · subst h0
      rw [if_pos rfl]
      simpa using hlen
    · subst h1
      rw [if_neg (by simp)]
      simp only [List.length_cons, List.length_nil] at hlen
      omega
  · intro hnc
    rcases submit_history_cases cfg backend h text ts with ⟨hh, _⟩ | ⟨cand, _, hc⟩
    · exact hh
    · rw [hc] at hnc
      exact absurd hnc (by simp)

/-- Witness for C2: a session with a leading System turn and one submit
whose output scanner blocks everything; the final history still has
exactly one turn and zero commits, and the non-committing submit left
the history unchanged. -/
theorem history_length_invariant_witness :
    ((runSession (SessionConfig.mk [] [fun _ _ =>
          GuardrailVerdict.mk "blockAll" ScanDecision.block 1 "blocked"] 2 true)
        [Turn.mk Role.system "sys" 0]
        [("hi", fun _ => .ok (Turn.mk .assistant "yo" 1), 1)]).1.length =
      2 * (runSession (SessionConfig.mk [] [fun _ _ =>
          GuardrailVerdict.mk "blockAll" ScanDecision.block 1 "blocked"] 2 true)
        [Turn.mk Role.system "sys" 0]
        [("hi", fun _ => .ok (Turn.mk .assistant "yo" 1), 1)]).2 +
        (if ([Turn.mk Role.system "sys" 0] : List Turn) = [] then 0 else 1)) ∧
    (isCommitted (submit (SessionConfig.mk [] [fun _ _ =>
          GuardrailVerdict.mk "blockAll" ScanDecision.block 1 "blocked"] 2 true)
        (fun _ => .ok (Turn.mk .assistant "yo" 1))
        [Turn.mk Role.system "sys" 0] "hi" 1).result = false →
      (submit (SessionConfig.mk [] [fun _ _ =>
          GuardrailVerdict.mk "blockAll" ScanDecision.block 1 "blocked"] 2 true)
        (fun _ => .ok (Turn.mk .assistant "yo" 1))
        [Turn.mk Role.system "sys" 0] "hi" 1).history =
        [Turn.mk Role.system "sys" 0]) :=
  history_length_invariant _ _ _ _ _ _ _
    (Or.inr ⟨"sys", 0, rfl⟩)

/-- C3: under the default fail-closed configuration a scan outcome whose
decision is NeedsReview is rejected exactly as Block is, a submit whose
input scan decision is Block or NeedsReview resolves to a rejection
carrying that outcome, and a submit can reach Committed only when both
the input scan and the output scan of the committed candidate decided
Allow, so a Block or NeedsReview decision is never silently committed. -/
theorem needsreview_fail_closed (scI scO : List Scanner) (r : Nat)
    (backend : Nat → InferResult) (history : List Turn) (text : String)
    (ts : Nat) (cand : Turn) :
    (∀ o : ScanOutcome,
      rejects (SessionConfig.mk scI scO r true) o = true ↔
        (o.decision = .block ∨ o.decision = .needsReview)) ∧
    ((inputOutcome (SessionConfig.mk scI scO r true) history text ts).decision ≠
        .allow →
      (submit (SessionConfig.mk scI scO r true) backend history text ts).result =
        .rejected (GuardrailRejection.mk .input
          (inputOutcome (SessionConfig.mk scI scO r true) history text ts))) ∧
    ((submit (SessionConfig.mk scI scO r true) backend history text ts).result =
        .committed cand →
      (inputOutcome (SessionConfig.mk scI scO r true) history text ts).decision =
          .allow ∧
      (outputOutcome (SessionConfig.mk scI scO r true) text ts cand).decision =
          .allow) := by
  refine ⟨?_, ?_, ?_⟩
  · intro o
    cases hd : o.decision <;> simp [rejects, hd]
  · intro hne
    have hrej : rejects (SessionConfig.mk scI scO r true)
        (inputOutcome (SessionConfig.mk scI scO r true) history text ts) = true := by
      cases hd : (inputOutcome (SessionConfig.mk scI scO r true) history text ts).decision with
      | allow => exact absurd hd hne
      | needsReview => simp [rejects, hd]
      | block => simp [rejects, hd]
    rw [submit_of_input_rejected _ backend history text ts hrej]
  · intro hcom
    by_cases hin : rejects (SessionConfig.mk scI scO r true)
        (inputOutcome (SessionConfig.mk scI scO r true) history text ts) = true
    · rw [submit_of_input_rejected _ backend history text ts hin] at hcom
      exact absurd hcom (by simp)
    · rw [Bool.not_eq_true] at hin
      rcases hrun : runInference backend 0
          (SessionConfig.mk scI scO r true).retryBudget with ⟨res, n⟩
      cases res with
      | err e =>
          rw [submit_of_infer_err _ backend history text ts e n hin hrun] at hcom
          exact absurd hcom (by simp)
      | ok cand2 =>
          by_cases hout : rejects (SessionConfig.mk scI scO r true)
              (outputOutcome (SessionConfig.mk scI scO r true) text ts cand2) = true
          · rw [submit_of_output_rejected _ backend history text ts cand2 n hin hrun hout]
              at hcom
            exact absurd hcom (by simp)
          · rw [Bool.not_eq_true] at hout
            rw [submit_of_committed _ backend history text ts cand2 n hin hrun hout]
              at hcom
            have hc2 : cand2 = cand := by
              have := hcom
              simp at this
              exact this
            subst hc2
            exact ⟨decision_allow_of_not_rejects rfl hin,
              decision_allow_of_not_rejects rfl hout⟩

/-- Witness for C3: a trivial session with no scanners commits, and the
fail-closed equivalence holds at a concrete NeedsReview outcome. -/
theorem needsreview_fail_closed_witness :
    (∀ o : ScanOutcome,
      rejects (SessionConfig.mk [] [] 2 true) o = true ↔
        (o.decision = .block ∨ o.decision = .needsReview)) ∧
    ((inputOutcome (SessionConfig.mk [] [] 2 true) [] "hi" 0).decision ≠ .allow →
      (submit (SessionConfig.mk [] [] 2 true)
          (fun _ => .ok (Turn.mk .assistant "yo" 1)) [] "hi" 0).result =
        .rejected (GuardrailRejection.mk .input
          (inputOutcome (SessionConfig.mk [] [] 2 true) [] "hi" 0))) ∧
    ((submit (SessionConfig.mk [] [] 2 true)
        (fun _ => .ok (Turn.mk .assistant "yo" 1)) [] "hi" 0).result =
        .committed (Turn.mk .assistant "yo" 1) →
      (inputOutcome (SessionConfig.mk [] [] 2 true) [] "hi" 0).decision = .allow ∧
      (outputOutcome (SessionConfig.mk [] [] 2 true) "hi" 0
          (Turn.mk .assistant "yo" 1)).decision = .allow) :=
  needsreview_fail_closed [] [] 2
    (fun _ => .ok (Turn.mk .assistant "yo" 1)) [] "hi" 0
    (Turn.mk .assistant "yo" 1)

/-- C4: guardrail aggregation is worst-case precedence and commutative:
for a non-empty verdict list the aggregate decision is Block when some
verdict is Block, otherwise NeedsReview when some verdict is
NeedsReview, otherwise Allow; ties on the winning decision resolve to
the highest score, which is attained by some winning verdict and bounds
every winning verdict; and both the decision and the score are invariant
under permutation of the verdicts. -/
theorem aggregation_worst_case_commutative
    (vs vs' : List GuardrailVerdict) (hperm : vs.Perm vs') (hne : vs ≠ [])
    (hsc : ∀ v ∈ vs, 0 ≤ v.score) :
    (aggDecision vs = .block ↔ ∃ v ∈ vs, v.decision = .block) ∧
    (aggDecision vs = .needsReview ↔
      (∀ v ∈ vs, v.decision ≠ .block) ∧ ∃ v ∈ vs, v.decision = .needsReview) ∧
    (aggDecision vs = .allow ↔ ∀ v ∈ vs, v.decision = .allow) ∧
    (∃ v ∈ vs, v.decision = aggDecision vs ∧ aggScore vs = v.score) ∧
    (∀ v ∈ vs, v.decision = aggDecision vs → v.score ≤ aggScore vs) ∧
    aggDecision vs = aggDecision vs' ∧ aggScore vs = aggScore vs' := by
  refine ⟨aggDecision_eq_block vs, aggDecision_eq_needsReview vs,
    aggDecision_eq_allow vs, ?_, ?_, aggDecision_perm hperm, aggScore_perm hperm⟩
  · obtain ⟨w, hw, hwd⟩ := aggDecision_attained hne
    have hwin : w ∈ winners vs := mem_winners.2 ⟨hw, hwd⟩
    have hwne : winners vs ≠ [] := by
      intro h0
      rw [h0] at hwin
      exact (List.not_mem_nil w) hwin
    have hpos : ∀ v ∈ winners vs, 0 ≤ v.score :=
      fun v hv => hsc v (mem_winners.1 hv).1
    obtain ⟨u, hu, huf⟩ := scoreFold_attained hwne hpos
    obtain ⟨humem, hud⟩ := mem_winners.1 hu
    exact ⟨u, humem, hud, huf⟩
  · intro v hv hd
    exact le_scoreFold (mem_winners.2 ⟨hv, hd⟩)

/-- Witness for C4: two permuted two-verdict lists with a Block and a
NeedsReview verdict; the aggregate is Block with the Block verdict score
on both orders. -/
theorem aggregation_worst_case_commutative_witness :
    (aggDecision [GuardrailVerdict.mk "a" ScanDecision.block 1 "r1",
        GuardrailVerdict.mk "b" ScanDecision.needsReview 0 "r2"] = .block ↔
      ∃ v ∈ [GuardrailVerdict.mk "a" ScanDecision.block 1 "r1",
        GuardrailVerdict.mk "b" ScanDecision.needsReview 0 "r2"],
          v.decision = .block) ∧
    (aggDecision [GuardrailVerdict.mk "a" ScanDecision.block 1 "r1",
        GuardrailVerdict.mk "b" ScanDecision.needsReview 0 "r2"] = .needsReview ↔
      (∀ v ∈ [GuardrailVerdict.mk "a" ScanDecision.block 1 "r1",
        GuardrailVerdict.mk "b" ScanDecision.needsReview 0 "r2"],
          v.decision ≠ .block) ∧
        ∃ v ∈ [GuardrailVerdict.mk "a" ScanDecision.block 1 "r1",
          GuardrailVerdict.mk "b" ScanDecision.needsReview 0 "r2"],
            v.decision = .needsReview) ∧
    (aggDecision [GuardrailVerdict.mk "a" ScanDecision.block 1 "r1",
        GuardrailVerdict.mk "b" ScanDecision.needsReview 0 "r2"] = .allow ↔
      ∀ v ∈ [GuardrailVerdict.mk "a" ScanDecision.block 1 "r1",
        GuardrailVerdict.mk "b" ScanDecision.needsReview 0 "r2"],
          v.decision = .allow) ∧
    (∃ v ∈ [GuardrailVerdict.mk "a" ScanDecision.block 1 "r1",
        GuardrailVerdict.mk "b" ScanDecision.needsReview 0 "r2"],
      v.decision = aggDecision [GuardrailVerdict.mk "a" ScanDecision.block 1 "r1",
        GuardrailVerdict.mk "b" ScanDecision.needsReview 0 "r2"] ∧
      aggScore [GuardrailVerdict.mk "a" ScanDecision.block 1 "r1",
        GuardrailVerdict.mk "b" ScanDecision.needsReview 0 "r2"] = v.score) ∧
    (∀ v ∈ [GuardrailVerdict.mk "a" ScanDecision.block 1 "r1",
        GuardrailVerdict.mk "b" ScanDecision.needsReview 0 "r2"],
      v.decision = aggDecision [GuardrailVerdict.mk "a" ScanDecision.block 1 "r1",
        GuardrailVerdict.mk "b" ScanDecision.needsReview 0 "r2"] →
      v.score ≤ aggScore [GuardrailVerdict.mk "a" ScanDecision.block 1 "r1",
        GuardrailVerdict.mk "b" ScanDecision.needsReview 0 "r2"]) ∧
    aggDecision [GuardrailVerdict.mk "a" ScanDecision.block 1 "r1",
        GuardrailVerdict.mk "b" ScanDecision.needsReview 0 "r2"] =
      aggDecision [GuardrailVerdict.mk "b" ScanDecision.needsReview 0 "r2",
        GuardrailVerdict.mk "a" ScanDecision.block 1 "r1"] ∧
    aggScore [GuardrailVerdict.mk "a" ScanDecision.block 1 "r1",
        GuardrailVerdict.mk "b" ScanDecision.needsReview 0 "r2"] =
      aggScore [GuardrailVerdict.mk "b" ScanDecision.needsReview 0 "r2",
        GuardrailVerdict.mk "a" ScanDecision.block 1 "r1"] :=
  aggregation_worst_case_commutative _ _
    (List.Perm.swap _ _ _) (by decide) (by decide)

/-- C5: every Conversation reachable through the Message Store append
contract has at most one System turn, and only the first position may be
a System turn; append returns the Conversation extended by exactly the
given turn on success, and fails with InvariantViolation exactly when
the turn is a System turn added to a non-empty Conversation, that is, a
second System turn or a System turn out of order; being a pure function
it leaves the Conversation unchanged on failure. -/
theorem message_store_system_invariant (c : List Turn) (t : Turn)
    (c' : List Turn) (hr : ReachableConv c) :
    (atMostOneSystem c ∧ tailNoSystem c) ∧
    (appendTurn c t = .ok c' → c' = c ++ [t]) ∧
    (appendTurn c t = .error .invariantViolation ↔
      t.role = Role.system ∧ c ≠ []) := by
  have htail := reachable_tailNoSystem hr
  exact ⟨⟨atMostOne_of_tailNoSystem htail, htail⟩,
    fun h => (appendTurn_ok_eq h).1, appendTurn_error_iff c t⟩

/-- Witness for C5: the Conversation holding one System turn is
reachable, appending a second System turn fails, and appending a user
turn extends it at the end. -/
theorem message_store_system_invariant_witness :
    ((atMostOneSystem [Turn.mk Role.system "sys" 0] ∧
      tailNoSystem [Turn.mk Role.system "sys" 0]) ∧
    (appendTurn [Turn.mk Role.system "sys" 0] (Turn.mk Role.user "hi" 1) =
        .ok [Turn.mk Role.system "sys" 0, Turn.mk Role.user "hi" 1] →
      [Turn.mk Role.system "sys" 0, Turn.mk Role.user "hi" 1] =
        [Turn.mk Role.system "sys" 0] ++ [Turn.mk Role.user "hi" 1]) ∧
    (appendTurn [Turn.mk Role.system "sys" 0] (Turn.mk Role.user "hi" 1) =
        .error .invariantViolation ↔
      (Turn.mk Role.user "hi" 1).role = Role.system ∧
        ([Turn.mk Role.system "sys" 0] : List Turn) ≠ [])) ∧
    appendTurn [Turn.mk Role.system "sys" 0] (Turn.mk Role.system "sys2" 1) =
      .error .invariantViolation :=
  ⟨message_store_system_invariant [Turn.mk Role.system "sys" 0]
      (Turn.mk Role.user "hi" 1)
      [Turn.mk Role.system "sys" 0, Turn.mk Role.user "hi" 1]
      (@ReachableConv.step [] (Turn.mk Role.system "sys" 0)
        [Turn.mk Role.system "sys" 0] ReachableConv.nil rfl),
    rfl⟩

/-- C6: the retry policy is bounded: BadRequest is surfaced immediately
with a single inference call and no retry; every submit makes at most
retryBudget plus one inference calls; a backend that always fails with
Unavailable exhausts exactly the budget plus one calls before the
failure is surfaced; and under the default budget of two retries a
backend failing Unavailable exactly twice then succeeding makes submit
return the successful Turn after exactly three inference calls. -/
theorem retry_policy_bounded :
    (∀ backend : Nat → InferResult, ∀ r : Nat,
      backend 0 = .err .badRequest →
        runInference backend 0 r = (.err .badRequest, 1)) ∧
    (∀ backend : Nat → InferResult, ∀ r a : Nat,
      (runInference backend a r).2 ≤ r + 1) ∧
    (∀ backend : Nat → InferResult, ∀ r : Nat,
      (∀ k, backend k = .err .unavailable) →
        runInference backend 0 r = (.err .unavailable, r + 1)) ∧
    (∀ t : Turn,
      runInference (fun n => if n < 2 then .err .unavailable else .ok t) 0 2 =
        (.ok t, 3)) ∧
    (∀ cfg : SessionConfig, ∀ history : List Turn, ∀ text : String,
      ∀ ts : Nat, ∀ t : Turn,
      cfg.retryBudget = 2 →
      rejects cfg (inputOutcome cfg history text ts) = false →
      rejects cfg (outputOutcome cfg text ts t) = false →
      submit cfg (fun n => if n < 2 then .err .unavailable else .ok t)
          history text ts =
        SubmitOutput.mk (.committed t) (history ++ [mkUserTurn text ts, t]) 3) := by
  have hscen : ∀ t : Turn,
      runInference (fun n => if n < 2 then .err .unavailable else .ok t) 0 2 =
        (.ok t, 3) := by
    intro t
    rfl
  refine ⟨?_, ?_, ?_, hscen, ?_⟩
  · intro backend r h
    exact runInference_of_badRequest backend 0 r h
  · intro backend r a
    exact runInference_calls_le backend r a
  · intro backend r h
    exact runInference_all_unavailable backend h r 0
  · intro cfg history text ts t hbud hin hout
    have hrun : runInference (fun n => if n < 2 then .err .unavailable else .ok t)
        0 cfg.retryBudget = (.ok t, 3) := by
      rw [hbud]
      exact hscen t
    exact submit_of_committed cfg _ history text ts t 3 hin hrun hout

/-- Witness for C6: with a backend that always answers BadRequest the
loop stops after one call; with one failing Unavailable twice then
succeeding, submit with no scanners commits the turn after exactly three
calls. -/
theorem retry_policy_bounded_witness :
    runInference (fun _ => InferResult.err .badRequest) 0 2 =
      (.err .badRequest, 1) ∧
    runInference
        (fun n => if n < 2 then .err .unavailable
          else .ok (Turn.mk .assistant "yo" 1)) 0 2 =
      (.ok (Turn.mk .assistant "yo" 1), 3) ∧
    submit (SessionConfig.mk [] [] 2 true)
        (fun n => if n < 2 then .err .unavailable
          else .ok (Turn.mk .assistant "yo" 1)) [] "hi" 0 =
      SubmitOutput.mk (.committed (Turn.mk .assistant "yo" 1))
        ([] ++ [mkUserTurn "hi" 0, Turn.mk .assistant "yo" 1]) 3 :=
  ⟨retry_policy_bounded.1 _ 2 rfl,
    retry_policy_bounded.2.2.2.1 (Turn.mk .assistant "yo" 1),
    retry_policy_bounded.2.2.2.2 (SessionConfig.mk [] [] 2 true) [] "hi" 0
      (Turn.mk .assistant "yo" 1) rfl rfl rfl⟩

/-- C7: the Inference Client complete call is conversation preserving:
for every conversation, options and transport outcome, whether it
returns a Turn or any InferenceError, the conversation it hands back is
exactly the one passed in, and the request payload carries exactly those
turns. -/
theorem complete_preserves_conversation (c : List Turn)
    (o : InferenceOptions) (m : String) (reply : BackendReply) :
    (complete c o m reply).2.2 = c ∧ (complete c o m reply).1.messages = c := by
  cases reply <;> exact ⟨rfl, rfl⟩

/-- C8: on every submit that reaches the output-scan stage, the outcome
the controller acts on is the output chain applied to exactly the
candidate turn together with the original user turn of this submit, the
trace; the candidate is not yet part of history at that point, and the
same rejection policy as the input stage decides: if it rejects, the
submit resolves to an Output rejection with history unchanged, and
otherwise the candidate is committed. -/
theorem output_scan_on_trace (cfg : SessionConfig)
    (backend : Nat → InferResult) (history : List Turn) (text : String)
    (ts : Nat) (cand : Turn) (n : Nat)
    (hin : rejects cfg (inputOutcome cfg history text ts) = false)
    (hrun : runInference backend 0 cfg.retryBudget = (.ok cand, n)) :
    (outputOutcome cfg text ts cand =
      scanChain cfg.outputScanners cand [mkUserTurn text ts, cand]) ∧
    (rejects cfg (outputOutcome cfg text ts cand) = true →
      (submit cfg backend history text ts).result =
        .rejected (GuardrailRejection.mk .output (outputOutcome cfg text ts cand)) ∧
      (submit cfg backend history text ts).history = history) ∧
    (rejects cfg (outputOutcome cfg text ts cand) = false →
      (submit cfg backend history text ts).result = .committed cand ∧
      (submit cfg backend history text ts).history =
        history ++ [mkUserTurn text ts, cand]) := by
  refine ⟨rfl, ?_, ?_⟩
  · intro hout
    rw [submit_of_output_rejected cfg backend history text ts cand n hin hrun hout]
    exact ⟨rfl, rfl⟩
  · intro hout
    rw [submit_of_committed cfg backend history text ts cand n hin hrun hout]
    exact ⟨rfl, rfl⟩

/-- Witness for C8: a session with no input scanners and one output
scanner blocking the dog reply; the theorem instantiated at the dog
candidate shows the output rejection leaves only the original history. -/
theorem output_scan_on_trace_witness :
    (outputOutcome
        (SessionConfig.mk []
          [fun text _ =>
            if text = "Dogs are descendants of wolves"
              then GuardrailVerdict.mk "alignment" ScanDecision.block 1 "topic deviation"
              else GuardrailVerdict.mk "alignment" ScanDecision.allow 0 "ok"]
          2 true) "What is the weather?" 1
        (Turn.mk .assistant "Dogs are descendants of wolves" 2) =
      scanChain
        [fun text _ =>
          if text = "Dogs are descendants of wolves"
            then GuardrailVerdict.mk "alignment" ScanDecision.block 1 "topic deviation"
            else GuardrailVerdict.mk "alignment" ScanDecision.allow 0 "ok"]
        (Turn.mk .assistant "Dogs are descendants of wolves" 2)
        [mkUserTurn "What is the weather?" 1,
          Turn.mk .assistant "Dogs are descendants of wolves" 2]) ∧
    (rejects
        (SessionConfig.mk []
          [fun text _ =>
            if text = "Dogs are descendants of wolves"
              then GuardrailVerdict.mk "alignment" ScanDecision.block 1 "topic deviation"
              else GuardrailVerdict.mk "alignment" ScanDecision.allow 0 "ok"]
          2 true)
        (outputOutcome
          (SessionConfig.mk []
            [fun text _ =>
              if text = "Dogs are descendants of wolves"
                then GuardrailVerdict.mk "alignment" ScanDecision.block 1 "topic deviation"
                else GuardrailVerdict.mk "alignment" ScanDecision.allow 0 "ok"]
            2 true) "What is the weather?" 1
          (Turn.mk .assistant "Dogs are descendants of wolves" 2)) = true →
      (submit
          (SessionConfig.mk []
            [fun text _ =>
              if text = "Dogs are descendants of wolves"
                then GuardrailVerdict.mk "alignment" ScanDecision.block 1 "topic deviation"
                else GuardrailVerdict.mk "alignment" ScanDecision.allow 0 "ok"]
            2 true)
          (fun _ => .ok (Turn.mk .assistant "Dogs are descendants of wolves" 2))
          [] "What is the weather?" 1).result =
        .rejected (GuardrailRejection.mk .output
          (outputOutcome
            (SessionConfig.mk []
              [fun text _ =>
                if text = "Dogs are descendants of wolves"
                  then GuardrailVerdict.mk "alignment" ScanDecision.block 1 "topic deviation"
                  else GuardrailVerdict.mk "alignment" ScanDecision.allow 0 "ok"]
              2 true) "What is the weather?" 1
            (Turn.mk .assistant "Dogs are descendants of wolves" 2))) ∧
      (submit
          (SessionConfig.mk []
            [fun text _ =>
              if text = "Dogs are descendants of wolves"
                then GuardrailVerdict.mk "alignment" ScanDecision.block 1 "topic deviation"
                else GuardrailVerdict.mk "alignment" ScanDecision.allow 0 "ok"]
            2 true)
          (fun _ => .ok (Turn.mk .assistant "Dogs are descendants of wolves" 2))
          [] "What is the weather?" 1).history = []) ∧
    (rejects
        (SessionConfig.mk []
          [fun text _ =>
            if text = "Dogs are descendants of wolves"
              then GuardrailVerdict.mk "alignment" ScanDecision.block 1 "topic deviation"
              else GuardrailVerdict.mk "alignment" ScanDecision.allow 0 "ok"]
          2 true)
        (outputOutcome
          (SessionConfig.mk []
            [fun text _ =>
              if text = "Dogs are descendants of wolves"
                then GuardrailVerdict.mk "alignment" ScanDecision.block 1 "topic deviation"
                else GuardrailVerdict.mk "alignment" ScanDecision.allow 0 "ok"]
            2 true) "What is the weather?" 1
          (Turn.mk .assistant "Dogs are descendants of wolves" 2)) = false →
      (submit
          (SessionConfig.mk []
            [fun text _ =>
              if text = "Dogs are descendants of wolves"
                then GuardrailVerdict.mk "alignment" ScanDecision.block 1 "topic deviation"
                else GuardrailVerdict.mk "alignment" ScanDecision.allow 0 "ok"]
            2 true)
          (fun _ => .ok (Turn.mk .assistant "Dogs are descendants of wolves" 2))
          [] "What is the weather?" 1).result =
        .committed (Turn.mk .assistant "Dogs are descendants of wolves" 2) ∧
      (submit
          (SessionConfig.mk []
            [fun text _ =>
              if text = "Dogs are descendants of wolves"
                then GuardrailVerdict.mk "alignment" ScanDecision.block 1 "topic deviation"
                else GuardrailVerdict.mk "alignment" ScanDecision.allow 0 "ok"]
            2 true)
          (fun _ => .ok (Turn.mk .assistant "Dogs are descendants of wolves" 2))
          [] "What is the weather?" 1).history =
        [] ++ [mkUserTurn "What is the weather?" 1,
          Turn.mk .assistant "Dogs are descendants of wolves" 2]) :=
  output_scan_on_trace _ _ [] "What is the weather?" 1
    (Turn.mk .assistant "Dogs are descendants of wolves" 2) 1 rfl rfl

/-- C9: when the backend answers with any HTTP status other than 200,
example_4_conversation returns None rather than an error value — the
function has no failure branch — and the caller cell that appends the
assistant reply then extends the conversation with an assistant message
whose content is None. -/
theorem non200_returns_none (messages : List NbMessage)
    (resp : NbHttpResponse) (h : resp.statusCode ≠ 200) :
    (example_4_conversation messages resp).2 = none ∧
    appendAssistant messages (example_4_conversation messages resp).2 =
      messages ++ [NbMessage.mk "assistant" none] := by
  have hb : (resp.statusCode == 200) = false := by
    simpa using h
  constructor
  · simp [example_4_conversation, hb]
  · simp [example_4_conversation, appendAssistant, hb]

/-- Witness for C9: a 500 response on a one-message conversation yields
None and an appended assistant message with content None. -/
theorem non200_returns_none_witness :
    (example_4_conversation [NbMessage.mk "user" (some "hi")]
        (NbHttpResponse.mk 500 "ignored")).2 = none ∧
    appendAssistant [NbMessage.mk "user" (some "hi")]
        (example_4_conversation [NbMessage.mk "user" (some "hi")]
          (NbHttpResponse.mk 500 "ignored")).2 =
      [NbMessage.mk "user" (some "hi")] ++ [NbMessage.mk "assistant" none] :=
  non200_returns_none [NbMessage.mk "user" (some "hi")]
    (NbHttpResponse.mk 500 "ignored") (by decide)

/-- C10: check_ollama_running is total over every outcome of the
availability probe — any status code, a timeout, a connection error or
any other exception — always returning a boolean, and it returns true
exactly when the GET request completed with status code 200. -/
theorem check_ollama_running_total (probe : ProbeOutcome) :
    check_ollama_running probe = true ↔ probe = ProbeOutcome.response 200 := by
  cases probe <;> simp [check_ollama_running]
